import Mathlib

/- Verification of the stream-metadata monitoring engine in src/stream_metadata.py.

   The Python code is shallowly embedded: every Lean definition below mirrors one
   function (or one self-contained fragment) of the source, with line references.
   Python strings are modelled as List Char (ASCII; all inputs of interest are
   ASCII), Python dicts carrying mixed string/bool/int values as association
   lists over PyVal, exceptions as Option/Except, and the mutable object state of
   the StreamMetadata instance together with the persisted JSON snapshot as the
   explicit record MonState. -/

namespace StreamMetadata

/-! Python string primitives (str.strip, str.split, str.lower, `in`, int(...)). -/

/-- ASCII model of the whitespace set stripped by Python str.strip(). -/
def pyIsSpace (c : Char) : Bool :=
  c == ' ' || c == '\t' || c == '\n' || c == '\r' || c == '\x0B' || c == '\x0C'

/-- Python s.lstrip() on char lists. -/
def pyLStrip (l : List Char) : List Char := l.dropWhile pyIsSpace

/-- Python s.rstrip() on char lists. -/
def pyRStrip (l : List Char) : List Char := (l.reverse.dropWhile pyIsSpace).reverse

/-- Python s.strip() on char lists. -/
def pyStripL (l : List Char) : List Char := pyRStrip (pyLStrip l)

/-- Python s.lstrip(cs) for an explicit character set. -/
def pyLStripChars (cs : List Char) (l : List Char) : List Char :=
  l.dropWhile (fun c => cs.contains c)

/-- Python s.rstrip(cs) for an explicit character set. -/
def pyRStripChars (cs : List Char) (l : List Char) : List Char :=
  (l.reverse.dropWhile (fun c => cs.contains c)).reverse

/-- Python s.strip(cs) for an explicit character set. -/
def pyStripChars (cs : List Char) (l : List Char) : List Char :=
  pyRStripChars cs (pyLStripChars cs l)

/-- Python s.lower() (ASCII). -/
def pyLowerL (l : List Char) : List Char := l.map Char.toLower

/-- Python `pat in s` (substring containment). -/
def pyInL (pat s : List Char) : Bool := decide (pat <:+: s)

/-- Splits s at the first occurrence of sep: some (before, after), or none when
    sep does not occur.  This is the semantics of Python s.split(sep, 1) when it
    produces two parts (and of str.find). -/
def pySplitOnceL (sep : List Char) : List Char → Option (List Char × List Char)
  | [] => none
  | c :: rest =>
    if sep.isPrefixOf (c :: rest) then some ([], (c :: rest).drop sep.length)
    else
      match pySplitOnceL sep rest with
      | some (b, a) => some (c :: b, a)
      | none => none

/-- Python s.split(sep, maxsplit): at most n splits, leftmost first. -/
def pySplitN (sep : List Char) : Nat → List Char → List (List Char)
  | 0, s => [s]
  | n + 1, s =>
    match pySplitOnceL sep s with
    | some (b, a) => b :: pySplitN sep n a
    | none => [s]

/-- Python s.split(sep) with no maxsplit.  Since sep is nonempty in every use in
    this file, s.length + 1 splits always suffice. -/
def pySplitAllL (sep s : List Char) : List (List Char) := pySplitN sep (s.length + 1) s

/-- Python s.replace(pat, rep) (replace every occurrence). -/
def pyReplaceAll (pat rep s : List Char) : List Char := List.intercalate rep (pySplitAllL pat s)

/-- Digit accumulator for pyIntOfChars. -/
def pyNatOfDigitsAux : Nat → List Char → Option Nat
  | acc, [] => some acc
  | acc, c :: rest =>
    if c.isDigit then pyNatOfDigitsAux (acc * 10 + (c.toNat - 48)) rest else none

/-- Nonempty all-digit parse; none models the ValueError of Python int(...). -/
def pyNatOfDigits : List Char → Option Nat
  | [] => none
  | l => pyNatOfDigitsAux 0 l

/-- Python int(s) on a stripped decimal literal with optional sign; none models
    the ValueError. -/
def pyIntOfChars (s : List Char) : Option Int :=
  match pyStripL s with
  | '-' :: rest => (pyNatOfDigits rest).map (fun n => -(n : Int))
  | '+' :: rest => (pyNatOfDigits rest).map (fun n => (n : Int))
  | t => (pyNatOfDigits t).map (fun n => (n : Int))

/-! Python dict values and association-list dicts. -/

/-- A Python value stored in a metadata dict: string, bool or int. -/
inductive PyVal where
  | vStr (s : String)
  | vBool (b : Bool)
  | vInt (n : Int)
deriving DecidableEq, Repr

/-- Insertion-ordered Python dict with string keys. -/
abbrev Dict := List (String × PyVal)

/-- Python d.get(k) / d[k] presence. -/
def pyGet (d : Dict) (k : String) : Option PyVal :=
  (d.find? (fun kv => kv.1 == k)).map (fun kv => kv.2)

/-- Python d[k] = v: overwrite in place, else append (insertion order). -/
def pySet (d : Dict) (k : String) (v : PyVal) : Dict :=
  match d with
  | [] => [(k, v)]
  | kv :: rest => if kv.1 == k then (k, v) :: rest else kv :: pySet rest k v

/-- Python d1.update(d2): set every binding of d2 into d1, in order. -/
def pyUpdate (d₁ d₂ : Dict) : Dict := d₂.foldl (fun acc kv => pySet acc kv.1 kv.2) d₁

/-- Python truthiness of an optional dict value (d.get(k) used as a condition). -/
def pyTruthy : Option PyVal → Bool
  | none => false
  | some (.vStr s) => !(s == "")
  | some (.vBool b) => b
  | some (.vInt n) => !(n == 0)

/-- The audio-property keys filtered out of current/history
    (src/stream_metadata.py lines 320 and 370). -/
def audioPropKeys : List String := ["codec", "sample_rate", "bitrate", "channels"]

/-- The dict comprehension dropping the audio-property keys (lines 320, 370). -/
def pyFilterAudio (d : Dict) : Dict := d.filter (fun kv => !(audioPropKeys.contains kv.1))

/-! Metadata Normalizer: parse_title. -/

/-- Result of parse_title. -/
structure TitleInfo where
  artist : String
  title : String
deriving DecidableEq, Repr

/-- The separator of the title-splitting rule (a dash between single spaces). -/
def sepDash : List Char := [' ', '-', ' ']

/-- The cleanup title.strip().rstrip(dash).strip() at line 280. -/
def pyCleanTitle (l : List Char) : List Char := pyStripL (pyRStripChars ['-'] (pyStripL l))

/-- Embeds StreamMetadata.parse_title (src/stream_metadata.py lines 276-288). -/
def parse_title (title : String) : TitleInfo :=
  if title == "" then { artist := "", title := "" }
  else
    let cleaned := pyCleanTitle title.data
    match pySplitOnceL sepDash cleaned with
    | some (a, b) => { artist := String.mk (pyStripL a), title := String.mk (pyStripL b) }
    | none => { artist := "", title := String.mk cleaned }

/-! Stream-id extraction and artifact naming. -/

/-- Python url.split(sep)[-1]. -/
def lastSegment (sep : Char) (l : List Char) : List Char := (pySplitAllL [sep] l).getLastD []

/-- Semantics of re.search(r.(\d+)(?:-icy|-mp3)$., target) for one alternative
    suffix, for a match ending at the literal end of target: it requires the
    suffix at the end, immediately preceded by at least one digit;
    leftmost-greedy search captures the maximal digit run there.  The other
    position the regex dollar anchor can match at - just before one newline
    that ends the string - is handled by dollar_trim below. -/
def extract_digit_run (suf : List Char) (mount : List Char) : Option (List Char) :=
  if suf.isSuffixOf mount then
    let base := mount.take (mount.length - suf.length)
    let run := (base.reverse.takeWhile Char.isDigit).reverse
    if run.isEmpty then none else some run
  else none

/-- The dollar anchor of a Python regex (without MULTILINE) matches at the end
    of the string and also just before a newline that ends the string.  For
    this pattern, whose alternatives end in y and 3, a match ending at the
    literal end of a newline-terminated mount is impossible, so searching
    mount is equivalent to searching mount with one trailing newline removed
    and requiring the suffix at the literal end. -/
def dollar_trim (l : List Char) : List Char :=
  if l.getLast? == some '\n' then l.dropLast else l

/-- Embeds StreamMetadata.extract_stream_id_from_url (lines 203-226): the regex
    is translated by its match semantics (see extract_digit_run and
    dollar_trim). -/
def extract_stream_id_from_url (url : String) : Option String :=
  if url == "" then none
  else
    let target := dollar_trim (lastSegment '/' url.data)
    match extract_digit_run ("-icy".data) target with
    | some r => some (String.mk r)
    | none =>
      match extract_digit_run ("-mp3".data) target with
      | some r => some (String.mk r)
      | none => none

/-- Module-level default flag (line 32); the claims concern non-test sessions. -/
def TEST_MODE : Bool := false

/-- The naming-relevant outcome of StreamMetadata.__init__. -/
structure Naming where
  stream_id : Option String
  mount : Option String
  json_path : String
  log_path : String
  adv_log_path : String
deriving DecidableEq, Repr

/-- Python truthiness of an optional string argument. -/
def optTruthy : Option String → Bool
  | none => false
  | some s => !(s == "")

/-- Embeds the naming logic of StreamMetadata.__init__ (lines 134-162) with
    TEST_MODE = false; `.error` models the ValueError raise at line 162. -/
def init_naming (stream_url : Option String) (stream_id0 : Option String) : Except String Naming :=
  let mount : Option String :=
    if optTruthy stream_url then some (String.mk (lastSegment '/' (stream_url.getD "").data))
    else none
  let sid : Option String :=
    if optTruthy stream_url then
      if optTruthy stream_id0 then stream_id0
      else
        match extract_stream_id_from_url (stream_url.getD "") with
        | some e => some e
        | none => stream_id0
    else stream_id0
  if optTruthy sid then
    let s := sid.getD ""
    .ok { stream_id := sid, mount := mount, json_path := s ++ ".json",
          log_path := s ++ "_friendly.log", adv_log_path := s ++ ".log" }
  else if optTruthy mount then
    let m := mount.getD ""
    .ok { stream_id := sid, mount := mount, json_path := m ++ ".json",
          log_path := m ++ "_friendly.log", adv_log_path := m ++ ".log" }
  else .error ("Cannot determine stream_id or mount for log file naming.")

/-! Session state: the mutable StreamMetadata fields the metadata loop touches,
    plus the persisted JSON snapshot. -/

/-- The parts of the persisted JSON snapshot the metadata loop reads and writes:
    server.connection_status, stream.audio_properties, metadata.current and
    metadata.history (history entries are the four-field dicts of lines
    302-307). -/
structure Persisted where
  server_connection_status : String
  stream_audio_properties : Dict
  metadata_current : Option Dict
  metadata_history : List Dict
deriving DecidableEq, Repr

/-- The StreamMetadata instance state used by the metadata loop, plus the
    snapshot and a trace (events) of the metadata events process_metadata
    persists, one entry per non-suppressed call. -/
structure MonState where
  in_ad : Bool
  ad_metadata : Dict
  codec : PyVal
  sample_rate : PyVal
  bitrate : PyVal
  channels : PyVal
  audio_info_ready : Bool
  audio_info_locked : Bool
  last_artist : String
  last_title : String
  last_type : String
  last_metadata : Dict
  has_seen_first_metadata : Bool
  connection_status : String
  audio_properties : Dict
  persisted : Persisted
  events : List Dict
deriving DecidableEq, Repr

/-- The session state right after run() initialises the JSON file (lines
    663-710) for a fresh session (no pre-existing snapshot file). -/
def initState : MonState where
  in_ad := false
  ad_metadata := []
  codec := .vStr "unknown"
  sample_rate := .vStr "unknown"
  bitrate := .vStr "unknown"
  channels := .vStr "unknown"
  audio_info_ready := false
  audio_info_locked := false
  last_artist := ""
  last_title := ""
  last_type := ""
  last_metadata := []
  has_seen_first_metadata := false
  connection_status := "connecting"
  audio_properties := []
  persisted := { server_connection_status := "connecting", stream_audio_properties := [],
                 metadata_current := none, metadata_history := [] }
  events := []

/-! Audio Properties Tracker. -/

/-- The raw/internal codec exclusion set (line 513). -/
def raw_codecs : List String := ["pcm_s16le", "pcm_f32le", "pcm_s24le", "pcm_s32le", "fltp", "s16p", "s32p"]

/-- The bitrate scan of lines 520-527: first part containing kb/s whose leading
    token parses as an int; parse failures continue the scan. -/
def find_bitrate_part : List (List Char) → Option Int
  | [] => none
  | p :: rest =>
    if pyInL ("kb/s".data) p then
      match pyIntOfChars ((pySplitAllL [' '] (pyStripL p)).headD []) with
      | some n => some n
      | none => find_bitrate_part rest
    else find_bitrate_part rest

/-- Embeds parse_ffmpeg_audio_stream_info (lines 507-534). -/
def parse_ffmpeg_audio_stream_info (line : String) (st : MonState) : MonState :=
  if pyInL ("Stream #0:0".data) line.data && pyInL ("Audio:".data) line.data
      && !st.audio_info_locked then
    let parts := pySplitAllL [','] ((pySplitAllL ("Audio:".data) line.data).getLastD [])
    if parts.length ≥ 5 then
      let codec := pyLowerL (pyStripL (parts.getD 0 []))
      if !(raw_codecs.contains (String.mk codec)) then
        let srRaw := pyStripL (pyReplaceAll ("Hz".data) [] (pyStripL (parts.getD 1 [])))
        let st := { st with codec := .vStr (String.mk codec) }
        let st := { st with sample_rate :=
          match pyIntOfChars srRaw with
          | some n => .vInt n
          | none => .vStr (String.mk srRaw) }
        let st := { st with channels := .vStr (String.mk (pyLowerL (pyStripL (parts.getD 2 [])))) }
        let st :=
          match find_bitrate_part parts with
          | some n => { st with bitrate := .vInt n }
          | none => st
        { st with audio_info_ready := true, audio_info_locked := true }
      else st
    else st
  else st

/-- Python f-string formatting of an accepted icy bitrate (lines 555, 565). -/
def kbps (n : Int) : String := toString n ++ " Kbps"

/-- One pair of the icy-audio-info loop (lines 542-559); `.error` models an
    exception inside int(value) aborting the rest of the body while keeping
    the field updates already made. -/
def icy_pair_step (st : MonState) (pair : List Char) : Except MonState MonState :=
  match pySplitOnceL ['='] pair with
  | none => .ok st
  | some (k, v) =>
    let key := String.mk (pyStripL k)
    let value := pyStripL v
    if key == "ice-samplerate" && st.sample_rate == PyVal.vStr "unknown" then
      .ok { st with sample_rate := .vStr (String.mk value), audio_info_ready := true }
    else if key == "ice-bitrate" && st.bitrate == PyVal.vStr "unknown" then
      match pyIntOfChars value with
      | none => .error st
      | some n =>
        .ok { st with bitrate := if n > 1000 then .vStr "unknown" else .vStr (kbps n),
                      audio_info_ready := true }
    else if key == "ice-channels" && st.channels == PyVal.vStr "unknown" then
      match pyIntOfChars value with
      | none => .error st
      | some n =>
        .ok { st with channels := .vStr (if n == 2 then "stereo" else "mono"),
                      audio_info_ready := true }
    else .ok { st with audio_info_ready := true }

/-- The pairs loop of parse_icy_audio_info. -/
def icy_pairs_loop : List (List Char) → MonState → Except MonState MonState
  | [], st => .ok st
  | p :: rest, st =>
    match icy_pair_step st p with
    | .error st2 => .error st2
    | .ok st2 => icy_pairs_loop rest st2

/-- The icy-br block of parse_icy_audio_info (lines 560-566); runs after the
    icy-audio-info block on the state it left behind. -/
def icy_br_update (line : String) (st2 : MonState) : MonState :=
  if pyInL ("icy-br".data) line.data && st2.bitrate == PyVal.vStr "unknown" then
    match pySplitOnceL [':'] line.data with
    | none => st2
    | some (_, rest) =>
      match pyIntOfChars (pyStripL rest) with
      | none => st2
      | some n =>
        { st2 with bitrate := if n > 1000 then PyVal.vStr "unknown" else .vStr (kbps n),
                   audio_info_ready := true }
  else st2

/-- Embeds parse_icy_audio_info (lines 536-568); exceptions (caught at line
    567) abort the remainder of the body while keeping earlier field updates. -/
def parse_icy_audio_info (line : String) (st : MonState) : MonState :=
  let afterInfo : Except MonState MonState :=
    if pyInL ("icy-audio-info".data) line.data then
      match pySplitOnceL [':'] line.data with
      | none => .error st
      | some (_, rest) => icy_pairs_loop (pySplitAllL [';'] (pyStripL rest)) st
    else .ok st
  match afterInfo with
  | .error st2 => st2
  | .ok st2 => icy_br_update line st2

/-! State Store: write_json_with_history, and the Metadata Normalizer and
    dedup logic of process_metadata. -/

/-- The history entry built at lines 302-307 from the four mandatory fields;
    none models the KeyError on a missing field (caught at line 343, so the
    whole write is skipped). -/
def history_entry_of (metadata : Dict) : Option Dict :=
  match pyGet metadata "timestamp", pyGet metadata "type",
        pyGet metadata "title", pyGet metadata "artist" with
  | some ts, some ty, some ti, some ar =>
    some [("timestamp", ts), ("type", ty), ("title", ti), ("artist", ar)]
  | _, _, _, _ => none

/-- The append guard of lines 310-311; none models a KeyError on the last
    stored entry. -/
def hist_append_cond (history : List Dict) (hm : Dict) : Option Bool :=
  match history.getLast? with
  | none => some true
  | some lastE =>
    match pyGet lastE "title", pyGet lastE "artist", pyGet hm "title", pyGet hm "artist" with
    | some lt, some la, some ht, some ha => some (!(lt == ht) || !(la == ha))
    | _, _, _, _ => none

/-- Python history[-10:] (line 315). -/
def pyLastTen (h : List Dict) : List Dict := h.drop (h.length - 10)

/-- The valid-audio test of lines 324-326 on one field: `v and v != .unknown.`. -/
def valid_audio_field (v : PyVal) : Bool := pyTruthy (some v) && !(v == PyVal.vStr "unknown")

/-- Embeds write_json_with_history (lines 294-344).  The snapshot read at line
    296 is the carried persisted state (single writer in the metadata loop);
    the stream section always exists after run() initialisation; on the
    modelled exception paths the function returns with nothing written. -/
def write_json_with_history (metadata : Dict) (st : MonState) : MonState :=
  match history_entry_of metadata with
  | none => st
  | some hm =>
    match hist_append_cond st.persisted.metadata_history hm with
    | none => st
    | some cond =>
      let history :=
        pyLastTen (if cond then st.persisted.metadata_history ++ [hm]
                   else st.persisted.metadata_history)
      let filtered := pyFilterAudio metadata
      let validAudio := valid_audio_field st.codec && valid_audio_field st.sample_rate
        && valid_audio_field st.bitrate && valid_audio_field st.channels
      let audioProps :=
        if st.audio_info_locked && validAudio then
          [("codec", st.codec), ("sample_rate", st.sample_rate),
           ("bitrate", st.bitrate), ("channels", st.channels)]
        else st.audio_properties
      { st with
        audio_properties := audioProps
        persisted := { st.persisted with
          metadata_history := history
          metadata_current := some filtered
          stream_audio_properties :=
            if audioProps.isEmpty then st.persisted.stream_audio_properties else audioProps } }

/-- The metadata.get(.title., ..) argument handed to parse_title at line 348.
    In this program the title binding is always a string when present; a
    non-string value (which would raise inside parse_title) is excluded by
    md_title_ok in the general theorems. -/
def titleArg (md : Dict) : String :=
  match pyGet md "title" with
  | some (.vStr s) => s
  | _ => ""

/-- True when the title binding is absent or a string (the only shapes this
    program produces). -/
def md_title_ok (md : Dict) : Bool :=
  match pyGet md "title" with
  | some (.vStr _) => true
  | none => true
  | _ => false

/-- Event type resolution at line 353: ad when adw_ad is truthy, else song. -/
def current_type_of (md : Dict) : String :=
  if pyTruthy (pyGet md "adw_ad") then "ad" else "song"

/-- The in-place normalisation of the metadata dict (lines 349-354). -/
def md_normalized (md : Dict) : Dict :=
  let ti := parse_title (titleArg md)
  let md1 := pySet md "artist" (.vStr ti.artist)
  let md2 := pySet md1 "title" (.vStr ti.title)
  pySet md2 "type" (.vStr (current_type_of md))

/-- The dedup key f.{artist}|{title}|{type}. of line 355. -/
def current_key_of (md : Dict) : String :=
  let ti := parse_title (titleArg md)
  ti.artist ++ "|" ++ ti.title ++ "|" ++ current_type_of md

/-- The previously-emitted key f.{last_artist}|{last_title}|{last_type}. of
    line 356. -/
def last_key_of (st : MonState) : String :=
  st.last_artist ++ "|" ++ st.last_title ++ "|" ++ st.last_type

/-- The complete_metadata dict of lines 371-377: the four derived fields,
    updated with the audio-filtered normalised metadata. -/
def complete_metadata_of (now : String) (md : Dict) : Dict :=
  let ti := parse_title (titleArg md)
  pyUpdate
    [("timestamp", .vStr now), ("type", .vStr (current_type_of md)),
     ("title", .vStr ti.title), ("artist", .vStr ti.artist)]
    (pyFilterAudio (md_normalized md))

/-- The emission path of process_metadata (lines 364-388): record last_*,
    persist through write_json_with_history, and trace the persisted event.
    ENABLE_AUDIO_METRICS is false (module default, line 29) so the metrics
    merge of lines 378-385 is a no-op; display_metadata only writes a log. -/
def process_metadata_emit (now : String) (md : Dict) (st : MonState) : MonState :=
  let ti := parse_title (titleArg md)
  let complete := complete_metadata_of now md
  let st1 := { st with
    last_metadata := md_normalized md
    last_artist := ti.artist
    last_title := ti.title
    last_type := current_type_of md }
  let st2 := write_json_with_history complete st1
  { st2 with events := st2.events ++ [complete] }

/-- Embeds process_metadata (lines 346-388); now stands for the
    datetime.now().strftime timestamp. -/
def process_metadata (now : String) (md : Dict) (st : MonState) : MonState :=
  if !st.has_seen_first_metadata then
    process_metadata_emit now md { st with has_seen_first_metadata := true }
  else if current_key_of md == last_key_of st && !(current_key_of md == "") then st
  else process_metadata_emit now md st

/-! Connection Status Tracker and the metadata read loop. -/

/-- Embeds update_connection_status (lines 998-1011): sets the in-memory flag
    and patches server.connection_status in the snapshot. -/
def update_connection_status (status : String) (st : MonState) : MonState :=
  { st with connection_status := status,
            persisted := { st.persisted with server_connection_status := status } }

/-- The batched ad fields (line 874). -/
def ad_fields : List String := ["adw_ad", "adId", "durationMilliseconds", "insertionType", "adswizzContext"]

/-- The first ad field whose update pattern occurs in the lowered line
    (lines 926-927; the for loop breaks at the first hit). -/
def find_ad_field (lower : List Char) : Option String :=
  ad_fields.find? (fun f =>
    pyInL (("metadata update for " ++ String.mk (pyLowerL f.data) ++ ":").data) lower)

/-- Python line.split(.:., 2)[-1].strip() (lines 908, 928). -/
def after_colons (line : String) : List Char :=
  pyStripL ((pySplitN [':'] 2 line.data).getLastD [])

/-- The line patterns routing to the audio parser (line 896). -/
def audio_line_patterns : List String := ["Audio:", "Stream #0:0", "Stream #0:1"]

/-- The line patterns routing to the icy parser (line 901). -/
def icy_line_patterns : List String := ["icy-audio-info", "icy-br"]

/-- The song-metadata line patterns (line 950), matched on the lowered line. -/
def song_line_patterns : List String :=
  ["streamtitle", "icy-metadata", "title=", "artist=", "metadata update for streamtitle"]

/-- A single-quote character, written by code point to keep source literals
    quote-free. -/
def sq : Char := Char.ofNat 39

/-- The title extraction chain of lines 952-966.  none covers both: no branch
    assigned a title (title stays None) and an IndexError in split(...)[1]
    (the exception is caught at line 986); either way the state is untouched. -/
def extract_title_raw (line : String) : Option (List Char) :=
  let lower := pyLowerL line.data
  if pyInL ("streamtitle".data) lower then
    if pyInL ("metadata update for streamtitle:".data) lower then
      (pySplitOnceL ("StreamTitle:".data) line.data).map (fun p => pyStripL p.2)
    else if pyInL ("streamtitle     :".data) lower then
      (pySplitOnceL ("StreamTitle     :".data) line.data).map (fun p => pyStripL p.2)
    else if pyInL ("streamtitle=".data) lower then
      (pySplitOnceL ("StreamTitle=".data) line.data).map (fun p => pyStripL p.2)
    else none
  else if pyInL ("title=".data) lower then
    (pySplitOnceL ("title=".data) line.data).map (fun p => pyStripL p.2)
  else none

/-- The song-metadata handling of lines 950-985: extract, clean quotes and
    dashes, reject empty or sentinel titles, then process. -/
def handle_song_line (now : String) (line : String) (st : MonState) : MonState :=
  match extract_title_raw line with
  | none => st
  | some t =>
    if t.isEmpty then st
    else
      let t2 := pyStripChars ['"', sq] (pyStripChars [' ', '-'] t)
      if !t2.isEmpty && !(["none", "null", ""].contains (String.mk (pyLowerL t2))) then
        let md : Dict := [("title", .vStr (String.mk t2)), ("type", .vStr "song"),
                          ("codec", st.codec), ("sample_rate", st.sample_rate),
                          ("bitrate", st.bitrate), ("channels", st.channels)]
        update_connection_status "connected" (process_metadata now md st)
      else st

/-- One iteration of the run_metadata_monitor read loop (lines 876-990) on one
    line.  decodeCtx models the base64+json decoding of adswizzContext (lines
    936-947): the string stored under adswizzContext_json, covering both the
    pretty-printed success and the decode-error diagnostic. -/
def run_metadata_monitor_step (decodeCtx : String → String) (now : String) (line : String)
    (st : MonState) : MonState :=
  if line == "" then st
  else
    let lower := pyLowerL line.data
    let st :=
      if audio_line_patterns.any (fun p => pyInL p.data line.data) then
        update_connection_status "connected" (parse_ffmpeg_audio_stream_info line st)
      else st
    if icy_line_patterns.any (fun p => pyInL p.data line.data) then
      update_connection_status "connected" (parse_icy_audio_info line st)
    else if pyInL ("metadata update for adw_ad:".data) lower then
      if String.mk (pyLowerL (after_colons line)) == "true" then
        update_connection_status "connected"
          { st with in_ad := true, ad_metadata := pySet st.ad_metadata "adw_ad" (.vBool true) }
      else
        let st1 := if st.in_ad && !st.ad_metadata.isEmpty
                   then process_metadata now st.ad_metadata st else st
        { st1 with ad_metadata := [], in_ad := false }
    else if st.in_ad then
      match find_ad_field lower with
      | none => st
      | some f =>
        let v := String.mk (after_colons line)
        let st1 := update_connection_status "connected"
          { st with ad_metadata := pySet st.ad_metadata f (.vStr v) }
        if f == "adswizzContext" then
          { st1 with ad_metadata := pySet st1.ad_metadata "adswizzContext_json" (.vStr (decodeCtx v)) }
        else st1
    else if song_line_patterns.any (fun p => pyInL p.data lower) then
      handle_song_line now line st
    else st

/-- The read loop folded over a sequence of (timestamp, line) inputs. -/
def run_lines (decodeCtx : String → String) (inputs : List (String × String))
    (st : MonState) : MonState :=
  inputs.foldl (fun s p => run_metadata_monitor_step decodeCtx p.1 p.2 s) st

/-! Early-failure probe of run_metadata_monitor. -/

/-- Control outcome of the ~1s early probe: return before the read loop, or
    proceed into it. -/
inductive ProbeOutcome where
  | failReturn : ProbeOutcome
  | proceedToReadLoop : ProbeOutcome
deriving DecidableEq, Repr

/-- The startup-failure phrases of lines 795-799. -/
def startup_failure_phrases : List String :=
  ["Failed to resolve hostname", "Error opening input", "404 Not Found",
   "Input/output error", "could not find codec parameters"]

/-- Embeds the early-failure probe of run_metadata_monitor (lines 789-820):
    after the one-second wait, a subprocess that has already exited with
    recognised error output (or a nonzero return code) gets
    server.connection_status patched to failed (the second component) and the
    function returns at once - run_metadata_monitor contains no relaunch of the
    metadata subprocess, so failReturn means no restart and no read loop. -/
def early_probe_outcome (exited : Bool) (returncode : Int) (error_output : String) :
    ProbeOutcome × Option String :=
  if exited then
    if startup_failure_phrases.any (fun p => pyInL p.data error_output.data) then
      (.failReturn, some ("failed"))
    else if returncode != 0 then (.failReturn, some ("failed"))
    else (.proceedToReadLoop, none)
  else (.proceedToReadLoop, none)

/-- The state carried out of an Except-modelled Python block, whether it ended
    normally or by a caught exception. -/
def exceptState : Except MonState MonState → MonState
  | .ok st => st
  | .error st => st

/-- Verification predicate for the amended lock claim: the codec and the lock
    flag are unchanged, and each of sample_rate, bitrate and channels is
    unchanged whenever it already held a value other than unknown. -/
def AudioPreserved (st st2 : MonState) : Prop :=
  st2.codec = st.codec
  ∧ st2.audio_info_locked = st.audio_info_locked
  ∧ (st.sample_rate ≠ PyVal.vStr "unknown" → st2.sample_rate = st.sample_rate)
  ∧ (st.bitrate ≠ PyVal.vStr "unknown" → st2.bitrate = st.bitrate)
  ∧ (st.channels ≠ PyVal.vStr "unknown" → st2.channels = st.channels)

/-- Wellformedness of the stored history needed by the append guard: the last
    entry, when any, carries title and artist bindings.  Every entry this
    program writes has them (history_entry_of). -/
def history_last_ok (h : List Dict) : Bool :=
  match h.getLast? with
  | none => true
  | some e => (pyGet e ("title")).isSome && (pyGet e ("artist")).isSome

/-! Concrete scenario inputs used by the witnesses and counterexamples. -/

/-- A concrete instantiation of the adswizzContext decoder parameter (never
    invoked on the scenario inputs below). -/
def decodeCtx0 : String → String := fun v => v

/-- The line sequence of the retriggered-ad scenario: marker true, field X (on
    adId), marker true again, field Z (on insertionType), marker false. -/
def c1_ad_lines : List (String × String) :=
  [("t1", "metadata update for adw_ad: true"),
   ("t2", "metadata update for adId: X"),
   ("t3", "metadata update for adw_ad: true"),
   ("t4", "metadata update for insertionType: Z"),
   ("t5", "metadata update for adw_ad: false")]

/-- The decoder line of the DJ Khaled scenario, with the single quotes written
    by code point. -/
def c6_line : String :=
  "StreamTitle=" ++ String.mk [sq] ++ "DJ Khaled - All I Do Is Win;" ++ String.mk [sq]

/-- An FFmpeg stream-description line whose Audio section carries no kb/s
    part, so the lock fires with the bitrate still unknown. -/
def c3_lock_line : String := "Stream #0:0: Audio: mp3, 44100 Hz, stereo, fltp, extra"

/-- An icy bitrate fallback line arriving after the lock. -/
def c3_icy_line : String := "icy-br: 128"

/-- One synthetic stored history entry for the capacity scenario. -/
def c4_entry (i : Nat) : Dict :=
  [("timestamp", PyVal.vStr (toString i)), ("type", PyVal.vStr "song"),
   ("title", PyVal.vStr (toString i)), ("artist", PyVal.vStr "a")]

/-- A full ten-entry history. -/
def c4_full_history : List Dict := (List.range 10).map c4_entry

/-- The eleventh, distinct event. -/
def c4_new_event : Dict :=
  [("timestamp", PyVal.vStr "t11"), ("type", PyVal.vStr "song"),
   ("title", PyVal.vStr "s11"), ("artist", PyVal.vStr "a11")]

/-- A session state whose persisted history is already full. -/
def c4_state : MonState :=
  { initState with persisted := { initState.persisted with metadata_history := c4_full_history } }

/-- A URL whose mount is terminated by a newline: the regex dollar anchor
    still matches just before it. -/
def c10_newline_url : String := "https://h/335488-icy\n"

/-! Helper lemmas about the Python string primitives. -/

theorem pySplitOnceL_spec {sep : List Char} (hsep : sep ≠ []) :
    ∀ {s b a : List Char}, pySplitOnceL sep s = some (b, a) →
      s = b ++ sep ++ a ∧ ¬ sep <:+: b := by
  intro s
  induction s with
  | nil => intro b a h; simp [pySplitOnceL] at h
  | cons c rest ih =>
    intro b a h
    rw [pySplitOnceL] at h
    by_cases hp : sep.isPrefixOf (c :: rest) = true
    · rw [if_pos hp] at h
      simp only [Option.some.injEq, Prod.mk.injEq] at h
      obtain ⟨hb, ha⟩ := h
      obtain ⟨t, ht⟩ := List.isPrefixOf_iff_prefix.mp hp
      subst hb
      refine ⟨?_, by simp [List.infix_nil, hsep]⟩
      rw [← ha, List.nil_append, ← ht, List.drop_left]
    · rw [if_neg hp] at h
      cases hrec : pySplitOnceL sep rest with
      | none => rw [hrec] at h; simp at h
      | some p =>
        obtain ⟨b0, a0⟩ := p
        rw [hrec] at h
        simp only [Option.some.injEq, Prod.mk.injEq] at h
        obtain ⟨hb, ha⟩ := h
        obtain ⟨hdec, hninf⟩ := ih hrec
        subst hb; subst ha
        refine ⟨by simp [hdec], ?_⟩
        intro hin
        rcases List.infix_cons_iff.mp hin with hpre | hinf
        · apply hp
          apply List.isPrefixOf_iff_prefix.mpr
          obtain ⟨t, ht⟩ := hpre
          refine ⟨t ++ sep ++ a0, ?_⟩
          have hcr : c :: rest = (c :: b0) ++ (sep ++ a0) := by simp [hdec]
          rw [hcr, ← ht]
          simp
        · exact hninf hinf

theorem pySplitOnceL_none {sep : List Char} (hsep : sep ≠ []) :
    ∀ {s : List Char}, pySplitOnceL sep s = none → ¬ sep <:+: s := by
  intro s
  induction s with
  | nil => intro _ hin; exact hsep (List.infix_nil.mp hin)
  | cons c rest ih =>
    intro h hin
    rw [pySplitOnceL] at h
    by_cases hp : sep.isPrefixOf (c :: rest) = true
    · rw [if_pos hp] at h; simp at h
    · rw [if_neg hp] at h
      rcases List.infix_cons_iff.mp hin with hpre | hinf
      · exact hp (List.isPrefixOf_iff_prefix.mpr hpre)
      · cases hrec : pySplitOnceL sep rest with
        | none => exact ih hrec hinf
        | some p => rw [hrec] at h; simp at h

theorem pySplitOnceL_isSome_of_infix {sep s : List Char} (hsep : sep ≠ [])
    (hin : sep <:+: s) : (pySplitOnceL sep s).isSome := by
  cases h : pySplitOnceL sep s with
  | none => exact absurd hin (pySplitOnceL_none hsep h)
  | some p => rfl

/-! C5: the title-splitting rule. -/

/-- C5: parse_title cleans the input (strip, strip trailing dashes, strip) and
    then, when the separator occurs in the cleaned text, returns the stripped
    text before its first occurrence as artist and the stripped remainder as
    title (so a title may itself contain the separator); otherwise the artist
    is empty and the cleaned text is the title.  In particular the inputs
    A - B and B give (artist A, title B) and (artist empty, title B). -/
theorem c5_title_splitting (s : String) :
    (sepDash <:+: pyCleanTitle s.data →
       ∃ befor after, pyCleanTitle s.data = befor ++ sepDash ++ after
         ∧ ¬ sepDash <:+: befor
         ∧ (parse_title s).artist = String.mk (pyStripL befor)
         ∧ (parse_title s).title = String.mk (pyStripL after))
    ∧ (¬ sepDash <:+: pyCleanTitle s.data →
       (parse_title s).artist = "" ∧ (parse_title s).title = String.mk (pyCleanTitle s.data))
    ∧ parse_title ("A - B") = { artist := "A", title := "B" }
    ∧ parse_title ("B") = { artist := "", title := "B" } := by
  refine ⟨?_, ?_, by decide, by decide⟩
  · intro hin
    have hs : ¬ s = "" := by
      intro hs0
      subst hs0
      exact absurd hin (by decide)
    have hsome := pySplitOnceL_isSome_of_infix (by decide) hin
    cases h : pySplitOnceL sepDash (pyCleanTitle s.data) with
    | none => rw [h] at hsome; simp at hsome
    | some p =>
      obtain ⟨b, a⟩ := p
      obtain ⟨hdec, hninf⟩ := pySplitOnceL_spec (by decide) h
      refine ⟨b, a, hdec, hninf, ?_, ?_⟩ <;>
        simp [parse_title, hs, h]
  · intro hnin
    by_cases hs : s = ""
    · subst hs; exact ⟨rfl, rfl⟩
    · cases h : pySplitOnceL sepDash (pyCleanTitle s.data) with
      | some p =>
        obtain ⟨b, a⟩ := p
        obtain ⟨hdec, _⟩ := pySplitOnceL_spec (by decide) h
        exact absurd ⟨b, a, by rw [← hdec]⟩ hnin
      | none => constructor <;> simp [parse_title, hs, h]

/-- C5 witness: the separator case and the no-separator case, instantiated. -/
theorem c5_title_splitting_witness :
    (∃ befor after, pyCleanTitle ("A - B").data = befor ++ sepDash ++ after
       ∧ ¬ sepDash <:+: befor
       ∧ (parse_title ("A - B")).artist = String.mk (pyStripL befor)
       ∧ (parse_title ("A - B")).title = String.mk (pyStripL after))
    ∧ (parse_title ("B")).artist = "" ∧ (parse_title ("B")).title = String.mk (pyCleanTitle ("B").data) :=
  ⟨(c5_title_splitting ("A - B")).1 (by decide), (c5_title_splitting ("B")).2.1 (by decide)⟩

/-! C7: early-probe network failure handling. -/

/-- C7: when the subprocess has exited inside the early-probe window and its
    buffered output contains the resolve-hostname error, the probe patches the
    persisted connection status to failed and run_metadata_monitor returns at
    once (no restart, no read loop). -/
theorem c7_resolve_failure_fails_and_returns (exited : Bool) (rc : Int) (out : String)
    (hex : exited = true)
    (hout : pyInL (("Failed to resolve hostname").data) out.data = true) :
    early_probe_outcome exited rc out = (.failReturn, some ("failed")) := by
  subst hex
  simp [early_probe_outcome, startup_failure_phrases, hout]

/-- C7 witness at a concrete early-exit output. -/
theorem c7_resolve_failure_witness :
    early_probe_outcome true 1 ("ffmpeg: Failed to resolve hostname for url") =
      (.failReturn, some ("failed")) :=
  c7_resolve_failure_fails_and_returns true 1 _ rfl (by decide)

/-! C9: the implausible-bitrate heuristic of the icy fallback. -/

/-- C9: on an icy-br line or an icy-audio-info line carrying an ice-bitrate
    pair, while the bitrate field is still unknown, a parsed integer bitrate
    strictly greater than 1000 is rejected (the field stays unknown) and one
    less than or equal to 1000 is accepted and stored. -/
theorem c9_icy_bitrate_heuristic (st : MonState) (n : Int)
    (hb : st.bitrate = PyVal.vStr "unknown") :
    (∀ (line : String) (befor rest : List Char),
        pyInL (("icy-audio-info").data) line.data = false →
        pyInL (("icy-br").data) line.data = true →
        pySplitOnceL [':'] line.data = some (befor, rest) →
        pyIntOfChars (pyStripL rest) = some n →
        (parse_icy_audio_info line st).bitrate
          = if n > 1000 then PyVal.vStr "unknown" else PyVal.vStr (kbps n))
    ∧ (∀ (line : String) (befor rest k v : List Char),
        pyInL (("icy-audio-info").data) line.data = true →
        pyInL (("icy-br").data) line.data = false →
        pySplitOnceL [':'] line.data = some (befor, rest) →
        pySplitAllL [';'] (pyStripL rest) = [pyStripL rest] →
        pySplitOnceL ['='] (pyStripL rest) = some (k, v) →
        String.mk (pyStripL k) = "ice-bitrate" →
        pyIntOfChars (pyStripL v) = some n →
        (parse_icy_audio_info line st).bitrate
          = if n > 1000 then PyVal.vStr "unknown" else PyVal.vStr (kbps n)) := by
  constructor
  · intro line befor rest hni hbr hsplit hn
    rw [parse_icy_audio_info]
    simp only [hni, Bool.false_eq_true, if_false]
    rw [icy_br_update]
    simp only [hbr, hsplit, hn, hb, Bool.true_and, beq_self_eq_true, if_true]
  · intro line befor rest k v hni hbr hsplit hpairs hpair hkey hn
    rw [parse_icy_audio_info]
    simp only [hni, if_true, hsplit, hpairs, icy_pairs_loop, icy_pair_step, hpair, hkey]
    by_cases hsr : st.sample_rate == PyVal.vStr "unknown"
    · simp only [hsr, hb, hn, hbr]
      simp [icy_br_update, hbr]
    · simp only [hsr, hb, hn, hbr]
      simp [icy_br_update, hbr]

/-- C9 witness: a rejected 1001 and an accepted 128, through both line kinds. -/
theorem c9_icy_bitrate_witness :
    (parse_icy_audio_info ("icy-br: 1001") initState).bitrate = PyVal.vStr "unknown"
    ∧ (parse_icy_audio_info ("icy-audio-info: ice-bitrate=128") initState).bitrate
        = PyVal.vStr "128 Kbps" := by
  constructor
  · have h := (c9_icy_bitrate_heuristic initState 1001 rfl).1 ("icy-br: 1001")
      (("icy-br").data) ((" 1001").data) (by decide) (by decide) (by decide) (by decide)
    rw [h]
    decide
  · have h := (c9_icy_bitrate_heuristic initState 128 rfl).2 ("icy-audio-info: ice-bitrate=128")
      (("icy-audio-info").data) ((" ice-bitrate=128").data)
      (("ice-bitrate").data) (("128").data)
      (by decide) (by decide) (by decide) (by decide) (by decide) (by decide) (by decide)
    rw [h]
    decide

/-! C1: the ad accumulator on a retriggered marker. -/

/-- C1 counterexample: running the claimed sequence, exactly one event is
    emitted, but it still contains field X (the adId set during the first,
    retriggered block) - the marker-true transition at t3 does not reset the
    accumulator (lines 907-915 only set in_ad and adw_ad), so the claim that
    the emitted event does not contain X is false. -/
theorem c1_counterexample :
    (run_lines decodeCtx0 c1_ad_lines initState).events.map (fun e => pyGet e ("adId"))
      = [some (PyVal.vStr "X")] := by decide

/-- C1 amended: for the sequence [marker=true, field=X, marker=true, field=Z,
    marker=false], exactly one Ad event is emitted and it contains both field X
    and field Z - a repeated marker=true keeps the accumulated fields instead
    of discarding them. -/
theorem c1_amended_retrigger_keeps_fields :
    (run_lines decodeCtx0 c1_ad_lines initState).events.map
        (fun e => (pyGet e ("type"), pyGet e ("adId"), pyGet e ("insertionType")))
      = [(some (PyVal.vStr "ad"), some (PyVal.vStr "X"), some (PyVal.vStr "Z"))] := by decide

/-! C6: the DJ Khaled StreamTitle scenario. -/

/-- C6 counterexample: the single decoder line yields a persisted title of
    "All I Do Is Win;" - the semicolon sits inside the quotes, and the quote
    stripping (line 969) happens after the space/dash stripping, so the
    semicolon survives; the claimed title without the semicolon is false. -/
theorem c6_counterexample :
    ((run_metadata_monitor_step decodeCtx0 ("2024-01-01 00:00:00") c6_line initState).events.map
        (fun e => pyGet e ("title")) = [some (PyVal.vStr "All I Do Is Win;")])
    ∧ ¬ ((run_metadata_monitor_step decodeCtx0 ("2024-01-01 00:00:00") c6_line initState).events.map
        (fun e => pyGet e ("title")) = [some (PyVal.vStr "All I Do Is Win")]) := by decide

/-- C6 amended: the line produces one persisted metadata event with artist
    DJ Khaled, title "All I Do Is Win;" (trailing semicolon retained) and type
    song, both in the event trace and in the persisted metadata.current. -/
theorem c6_amended_semicolon_retained :
    ((run_metadata_monitor_step decodeCtx0 ("2024-01-01 00:00:00") c6_line initState).events.map
        (fun e => (pyGet e ("artist"), pyGet e ("title"), pyGet e ("type")))
      = [(some (PyVal.vStr "DJ Khaled"), some (PyVal.vStr "All I Do Is Win;"),
          some (PyVal.vStr "song"))])
    ∧ ((run_metadata_monitor_step decodeCtx0 ("2024-01-01 00:00:00") c6_line initState).persisted.metadata_current.map
        (fun d => (pyGet d ("artist"), pyGet d ("title"), pyGet d ("type")))
      = some (some (PyVal.vStr "DJ Khaled"), some (PyVal.vStr "All I Do Is Win;"),
          some (PyVal.vStr "song"))) := by decide

/-! C3: the audio-properties lock. -/

/-- C3 counterexample: a Stream #0:0 Audio line with five comma parts but no
    kb/s token locks the audio properties with the bitrate still unknown; a
    later icy-br line - processed after the lock - then changes the bitrate,
    contradicting the claim that no line after the lock changes any of the
    four fields. -/
theorem c3_counterexample :
    (run_metadata_monitor_step decodeCtx0 ("t1") c3_lock_line initState).audio_info_locked = true
    ∧ (run_metadata_monitor_step decodeCtx0 ("t1") c3_lock_line initState).bitrate
        = PyVal.vStr "unknown"
    ∧ (run_metadata_monitor_step decodeCtx0 ("t2") c3_icy_line
        (run_metadata_monitor_step decodeCtx0 ("t1") c3_lock_line initState)).bitrate
        = PyVal.vStr "128 Kbps"
    ∧ ¬ ((run_metadata_monitor_step decodeCtx0 ("t2") c3_icy_line
        (run_metadata_monitor_step decodeCtx0 ("t1") c3_lock_line initState)).bitrate
        = (run_metadata_monitor_step decodeCtx0 ("t1") c3_lock_line initState).bitrate) := by
  decide

/-! Preservation lemmas supporting the amended lock claim. -/

theorem audioPreserved_refl (st : MonState) : AudioPreserved st st :=
  ⟨rfl, rfl, fun _ => rfl, fun _ => rfl, fun _ => rfl⟩

theorem audioPreserved_trans {st st2 st3 : MonState}
    (h12 : AudioPreserved st st2) (h23 : AudioPreserved st2 st3) :
    AudioPreserved st st3 := by
  obtain ⟨hc, hl, hs, hb, hch⟩ := h12
  obtain ⟨hc2, hl2, hs2, hb2, hch2⟩ := h23
  refine ⟨hc2.trans hc, hl2.trans hl, ?_, ?_, ?_⟩
  · intro h; rw [hs2 (by rw [hs h]; exact h), hs h]
  · intro h; rw [hb2 (by rw [hb h]; exact h), hb h]
  · intro h; rw [hch2 (by rw [hch h]; exact h), hch h]

theorem icy_pair_step_preserves (st : MonState) (p : List Char) :
    AudioPreserved st (exceptState (icy_pair_step st p)) := by
  rw [icy_pair_step]
  cases hsp : pySplitOnceL ['='] p with
  | none => exact audioPreserved_refl st
  | some kv =>
    obtain ⟨k, v⟩ := kv
    simp only
    by_cases h1 : (String.mk (pyStripL k) == "ice-samplerate"
        && st.sample_rate == PyVal.vStr "unknown") = true
    · rw [if_pos h1]
      have hsr : st.sample_rate = PyVal.vStr "unknown" := by
        simp only [Bool.and_eq_true, beq_iff_eq] at h1; exact h1.2
      exact ⟨rfl, rfl, fun hne => absurd hsr hne, fun _ => rfl, fun _ => rfl⟩
    · rw [if_neg h1]
      by_cases h2 : (String.mk (pyStripL k) == "ice-bitrate"
          && st.bitrate == PyVal.vStr "unknown") = true
      · rw [if_pos h2]
        have hbr : st.bitrate = PyVal.vStr "unknown" := by
          simp only [Bool.and_eq_true, beq_iff_eq] at h2; exact h2.2
        cases hint : pyIntOfChars (pyStripL v) with
        | none => exact audioPreserved_refl st
        | some n => exact ⟨rfl, rfl, fun _ => rfl, fun hne => absurd hbr hne, fun _ => rfl⟩
      · rw [if_neg h2]
        by_cases h3 : (String.mk (pyStripL k) == "ice-channels"
            && st.channels == PyVal.vStr "unknown") = true
        · rw [if_pos h3]
          have hch : st.channels = PyVal.vStr "unknown" := by
            simp only [Bool.and_eq_true, beq_iff_eq] at h3; exact h3.2
          cases hint : pyIntOfChars (pyStripL v) with
          | none => exact audioPreserved_refl st
          | some n => exact ⟨rfl, rfl, fun _ => rfl, fun _ => rfl, fun hne => absurd hch hne⟩
        · rw [if_neg h3]
          exact ⟨rfl, rfl, fun _ => rfl, fun _ => rfl, fun _ => rfl⟩

theorem icy_pairs_loop_preserves : ∀ (ps : List (List Char)) (st : MonState),
    AudioPreserved st (exceptState (icy_pairs_loop ps st)) := by
  intro ps
  induction ps with
  | nil => intro st; exact audioPreserved_refl st
  | cons p rest ih =>
    intro st
    rw [icy_pairs_loop]
    cases hstep : icy_pair_step st p with
    | error st2 =>
      have h := icy_pair_step_preserves st p
      rw [hstep] at h
      exact h
    | ok st2 =>
      have h := icy_pair_step_preserves st p
      rw [hstep] at h
      exact audioPreserved_trans h (ih st2)

theorem icy_br_update_preserves (line : String) (st : MonState) :
    AudioPreserved st (icy_br_update line st) := by
  rw [icy_br_update]
  by_cases h1 : (pyInL (("icy-br").data) line.data && st.bitrate == PyVal.vStr "unknown") = true
  · rw [if_pos h1]
    have hbr : st.bitrate = PyVal.vStr "unknown" := by
      simp only [Bool.and_eq_true, beq_iff_eq] at h1; exact h1.2
    split
    · exact audioPreserved_refl st
    · split
      · exact audioPreserved_refl st
      · exact ⟨rfl, rfl, fun _ => rfl, fun hne => absurd hbr hne, fun _ => rfl⟩
  · rw [if_neg h1]
    exact audioPreserved_refl st

theorem parse_icy_preserves (line : String) (st : MonState) :
    AudioPreserved st (parse_icy_audio_info line st) := by
  rw [parse_icy_audio_info]
  by_cases hin : pyInL (("icy-audio-info").data) line.data = true
  · rw [if_pos hin]
    cases hsp : pySplitOnceL [':'] line.data with
    | none => exact audioPreserved_refl st
    | some pr =>
      obtain ⟨pre, rest⟩ := pr
      simp only
      cases hloop : icy_pairs_loop (pySplitAllL [';'] (pyStripL rest)) st with
      | error st2 =>
        have h := icy_pairs_loop_preserves (pySplitAllL [';'] (pyStripL rest)) st
        rw [hloop] at h
        exact h
      | ok st2 =>
        have h := icy_pairs_loop_preserves (pySplitAllL [';'] (pyStripL rest)) st
        rw [hloop] at h
        exact audioPreserved_trans h (icy_br_update_preserves line st2)
  · rw [if_neg hin]
    exact icy_br_update_preserves line st

theorem parse_ffmpeg_locked_id (line : String) (st : MonState)
    (h : st.audio_info_locked = true) :
    parse_ffmpeg_audio_stream_info line st = st := by
  rw [parse_ffmpeg_audio_stream_info, h]
  simp

theorem ucs_preserves (s : String) (st : MonState) :
    AudioPreserved st (update_connection_status s st) :=
  ⟨rfl, rfl, fun _ => rfl, fun _ => rfl, fun _ => rfl⟩

theorem wjwh_untouched (m : Dict) (st : MonState) :
    (write_json_with_history m st).codec = st.codec
    ∧ (write_json_with_history m st).sample_rate = st.sample_rate
    ∧ (write_json_with_history m st).bitrate = st.bitrate
    ∧ (write_json_with_history m st).channels = st.channels
    ∧ (write_json_with_history m st).audio_info_locked = st.audio_info_locked
    ∧ (write_json_with_history m st).events = st.events := by
  rw [write_json_with_history]
  split
  · exact ⟨rfl, rfl, rfl, rfl, rfl, rfl⟩
  · split
    · exact ⟨rfl, rfl, rfl, rfl, rfl, rfl⟩
    · exact ⟨rfl, rfl, rfl, rfl, rfl, rfl⟩

theorem pm_emit_untouched (now : String) (md : Dict) (st : MonState) :
    (process_metadata_emit now md st).codec = st.codec
    ∧ (process_metadata_emit now md st).sample_rate = st.sample_rate
    ∧ (process_metadata_emit now md st).bitrate = st.bitrate
    ∧ (process_metadata_emit now md st).channels = st.channels
    ∧ (process_metadata_emit now md st).audio_info_locked = st.audio_info_locked
    ∧ (process_metadata_emit now md st).events
        = st.events ++ [complete_metadata_of now md] := by
  rw [process_metadata_emit]
  have h := wjwh_untouched (complete_metadata_of now md)
    { st with
      last_metadata := md_normalized md
      last_artist := (parse_title (titleArg md)).artist
      last_title := (parse_title (titleArg md)).title
      last_type := current_type_of md }
  exact ⟨h.1, h.2.1, h.2.2.1, h.2.2.2.1, h.2.2.2.2.1, by rw [h.2.2.2.2.2]⟩

theorem pm_untouched (now : String) (md : Dict) (st : MonState) :
    (process_metadata now md st).codec = st.codec
    ∧ (process_metadata now md st).sample_rate = st.sample_rate
    ∧ (process_metadata now md st).bitrate = st.bitrate
    ∧ (process_metadata now md st).channels = st.channels
    ∧ (process_metadata now md st).audio_info_locked = st.audio_info_locked := by
  rw [process_metadata]
  by_cases h1 : (!st.has_seen_first_metadata) = true
  · rw [if_pos h1]
    have h := pm_emit_untouched now md { st with has_seen_first_metadata := true }
    exact ⟨h.1, h.2.1, h.2.2.1, h.2.2.2.1, h.2.2.2.2.1⟩
  · rw [if_neg h1]
    by_cases h2 : (current_key_of md == last_key_of st && !(current_key_of md == "")) = true
    · rw [if_pos h2]
      exact ⟨rfl, rfl, rfl, rfl, rfl⟩
    · rw [if_neg h2]
      have h := pm_emit_untouched now md st
      exact ⟨h.1, h.2.1, h.2.2.1, h.2.2.2.1, h.2.2.2.2.1⟩

theorem pm_preserves (now : String) (md : Dict) (st : MonState) :
    AudioPreserved st (process_metadata now md st) := by
  obtain ⟨h1, h2, h3, h4, h5⟩ := pm_untouched now md st
  exact ⟨h1, h5, fun _ => h2, fun _ => h3, fun _ => h4⟩

theorem handle_song_preserves (now line : String) (st : MonState) :
    AudioPreserved st (handle_song_line now line st) := by
  rw [handle_song_line]
  cases ht : extract_title_raw line with
  | none => exact audioPreserved_refl st
  | some t =>
    simp only
    by_cases h0 : t.isEmpty = true
    · rw [if_pos h0]; exact audioPreserved_refl st
    · rw [if_neg h0]
      by_cases h1 : (!(pyStripChars ['"', sq] (pyStripChars [' ', '-'] t)).isEmpty
          && !(["none", "null", ""].contains
                (String.mk (pyLowerL (pyStripChars ['"', sq] (pyStripChars [' ', '-'] t)))))) = true
      · rw [if_pos h1]
        exact audioPreserved_trans (pm_preserves now _ st) (ucs_preserves _ _)
      · rw [if_neg h1]
        exact audioPreserved_refl st

/-! C3: the amended lock invariant. -/

/-- C3 amended: once audio_info_locked is set, processing any further line
    leaves codec unchanged and keeps the lock; sample_rate, channels and
    bitrate are unchanged whenever they already hold a value other than
    unknown (a field the locking line left as unknown - as the counterexample
    shows for bitrate - may still be filled by the icy fallback).  Moreover,
    locked or not, the icy fallback itself never overwrites a field that is
    already set: it only fills fields still equal to unknown. -/
theorem c3_amended_lock_invariant (decodeCtx : String → String) (now line : String)
    (st : MonState) :
    (st.audio_info_locked = true →
      (run_metadata_monitor_step decodeCtx now line st).codec = st.codec
      ∧ (run_metadata_monitor_step decodeCtx now line st).audio_info_locked = true
      ∧ (st.sample_rate ≠ PyVal.vStr "unknown" →
          (run_metadata_monitor_step decodeCtx now line st).sample_rate = st.sample_rate)
      ∧ (st.channels ≠ PyVal.vStr "unknown" →
          (run_metadata_monitor_step decodeCtx now line st).channels = st.channels)
      ∧ (st.bitrate ≠ PyVal.vStr "unknown" →
          (run_metadata_monitor_step decodeCtx now line st).bitrate = st.bitrate))
    ∧ ((parse_icy_audio_info line st).codec = st.codec
      ∧ (st.sample_rate ≠ PyVal.vStr "unknown" →
          (parse_icy_audio_info line st).sample_rate = st.sample_rate)
      ∧ (st.channels ≠ PyVal.vStr "unknown" →
          (parse_icy_audio_info line st).channels = st.channels)
      ∧ (st.bitrate ≠ PyVal.vStr "unknown" →
          (parse_icy_audio_info line st).bitrate = st.bitrate)) := by
  constructor
  · intro hl
    have hstep : AudioPreserved st (run_metadata_monitor_step decodeCtx now line st) := by
      rw [run_metadata_monitor_step]
      by_cases he : (line == "") = true
      · rw [if_pos he]; exact audioPreserved_refl st
      · rw [if_neg he]
        simp only
        have hfirst : AudioPreserved st
            (if audio_line_patterns.any (fun p => pyInL p.data line.data) then
              update_connection_status "connected" (parse_ffmpeg_audio_stream_info line st)
            else st) := by
          by_cases ha : (audio_line_patterns.any (fun p => pyInL p.data line.data)) = true
          · rw [if_pos ha, parse_ffmpeg_locked_id line st hl]
            exact ucs_preserves _ _
          · rw [if_neg ha]; exact audioPreserved_refl st
        set st1 := (if audio_line_patterns.any (fun p => pyInL p.data line.data) then
              update_connection_status "connected" (parse_ffmpeg_audio_stream_info line st)
            else st) with hst1
        refine audioPreserved_trans hfirst ?_
        by_cases hi : (icy_line_patterns.any (fun p => pyInL p.data line.data)) = true
        · rw [if_pos hi]
          exact audioPreserved_trans (parse_icy_preserves line st1) (ucs_preserves _ _)
        · rw [if_neg hi]
          by_cases hm : pyInL (("metadata update for adw_ad:").data) (pyLowerL line.data) = true
          · rw [if_pos hm]
            by_cases hv : (String.mk (pyLowerL (after_colons line)) == "true") = true
            · rw [if_pos hv]
              exact ⟨rfl, rfl, fun _ => rfl, fun _ => rfl, fun _ => rfl⟩
            · rw [if_neg hv]
              by_cases hia : (st1.in_ad && !st1.ad_metadata.isEmpty) = true
              · rw [if_pos hia]
                obtain ⟨p1, p2, p3, p4, p5⟩ := pm_preserves now st1.ad_metadata st1
                exact ⟨p1, p2, fun h => p3 h, fun h => p4 h, fun h => p5 h⟩
              · rw [if_neg hia]
                exact ⟨rfl, rfl, fun _ => rfl, fun _ => rfl, fun _ => rfl⟩
          · rw [if_neg hm]
            by_cases had : st1.in_ad = true
            · rw [if_pos had]
              cases hf : find_ad_field (pyLowerL line.data) with
              | none => exact audioPreserved_refl st1
              | some f =>
                simp only
                by_cases hctx : (f == "adswizzContext") = true
                · rw [if_pos hctx]
                  exact ⟨rfl, rfl, fun _ => rfl, fun _ => rfl, fun _ => rfl⟩
                · rw [if_neg hctx]
                  exact ⟨rfl, rfl, fun _ => rfl, fun _ => rfl, fun _ => rfl⟩
            · rw [if_neg had]
              by_cases hsng : (song_line_patterns.any (fun p => pyInL p.data (pyLowerL line.data))) = true
              · rw [if_pos hsng]
                exact handle_song_preserves now line st1
              · rw [if_neg hsng]
                exact audioPreserved_refl st1
    obtain ⟨p1, p2, p3, p4, p5⟩ := hstep
    exact ⟨p1, by rw [p2, hl], p3, p5, p4⟩
  · obtain ⟨p1, p2, p3, p4, p5⟩ := parse_icy_preserves line st
    exact ⟨p1, p3, p5, p4⟩

/-- C3 amended witness: after the locking line, the icy-br line preserves
    codec, lock, sample rate and channels (the already-set fields). -/
theorem c3_amended_lock_witness :
    (run_metadata_monitor_step decodeCtx0 ("t2") c3_icy_line
        (run_metadata_monitor_step decodeCtx0 ("t1") c3_lock_line initState)).codec
      = (run_metadata_monitor_step decodeCtx0 ("t1") c3_lock_line initState).codec
    ∧ (run_metadata_monitor_step decodeCtx0 ("t2") c3_icy_line
        (run_metadata_monitor_step decodeCtx0 ("t1") c3_lock_line initState)).audio_info_locked
      = true
    ∧ (run_metadata_monitor_step decodeCtx0 ("t2") c3_icy_line
        (run_metadata_monitor_step decodeCtx0 ("t1") c3_lock_line initState)).channels
      = (run_metadata_monitor_step decodeCtx0 ("t1") c3_lock_line initState).channels := by
  have h := (c3_amended_lock_invariant decodeCtx0 ("t2") c3_icy_line
      (run_metadata_monitor_step decodeCtx0 ("t1") c3_lock_line initState)).1 (by decide)
  exact ⟨h.1, h.2.1, h.2.2.2.1 (by decide)⟩

/-! Dict lemmas. -/

theorem pyGet_pySet (d : Dict) (k : String) (v : PyVal) : pyGet (pySet d k v) k = some v := by
  induction d with
  | nil => simp [pySet, pyGet, List.find?]
  | cons kv rest ih =>
    rw [pySet]
    by_cases h : (kv.1 == k) = true
    · rw [if_pos h]
      simp [pyGet, List.find?]
    · rw [if_neg h]
      simp only [pyGet, List.find?, h]
      exact ih

theorem pyGet_pySet_other (d : Dict) (k k2 : String) (v : PyVal) (h : ¬ k = k2) :
    pyGet (pySet d k v) k2 = pyGet d k2 := by
  have hne : (k == k2) = false := by rw [beq_eq_false_iff_ne]; exact h
  induction d with
  | nil => simp [pySet, pyGet, List.find?, hne]
  | cons kv rest ih =>
    rw [pySet]
    by_cases hh : (kv.1 == k) = true
    · rw [if_pos hh]
      have hk1 : kv.1 = k := by rwa [beq_iff_eq] at hh
      have hne2 : (kv.1 == k2) = false := by rw [hk1]; exact hne
      simp only [pyGet, List.find?, hne, hne2]
    · rw [if_neg hh]
      simp only [pyGet, List.find?]
      by_cases h2 : (kv.1 == k2) = true
      · simp only [h2]
      · simp only [Bool.not_eq_true] at h2
        simp only [h2]
        exact ih

theorem pyGet_pyUpdate_isSome (d2 : Dict) : ∀ (d1 : Dict) (k : String),
    (pyGet d1 k).isSome → (pyGet (pyUpdate d1 d2) k).isSome := by
  induction d2 with
  | nil => intro d1 k h; exact h
  | cons kv rest ih =>
    intro d1 k h
    simp only [pyUpdate, List.foldl_cons]
    apply ih
    by_cases hk : kv.1 = k
    · subst hk
      rw [pyGet_pySet]
      rfl
    · rw [pyGet_pySet_other _ _ _ _ hk]
      exact h

theorem complete_has_core_fields (now : String) (md : Dict) :
    (pyGet (complete_metadata_of now md) ("timestamp")).isSome
    ∧ (pyGet (complete_metadata_of now md) ("type")).isSome
    ∧ (pyGet (complete_metadata_of now md) ("title")).isSome
    ∧ (pyGet (complete_metadata_of now md) ("artist")).isSome := by
  rw [complete_metadata_of]
  refine ⟨?_, ?_, ?_, ?_⟩ <;>
    exact pyGet_pyUpdate_isSome _ _ _ (by rfl)

/-! C4: the ten-entry history cap and eviction order. -/

theorem pyLastTen_length_le (l : List Dict) : (pyLastTen l).length ≤ 10 := by
  simp only [pyLastTen, List.length_drop]
  omega

/-- C4: whenever write_json_with_history completes its write, the persisted
    history has at most 10 entries; appending a new entry to a history that
    already holds 10 evicts exactly the oldest entry, keeping the surviving
    entries in order with the new entry last, inside the same write; and a
    call that writes nothing (modelled exception) preserves the 10-entry
    bound. -/
theorem c4_history_capped (st : MonState) (md : Dict) (e : Dict) :
    (history_entry_of md = some e →
      ∀ cond, hist_append_cond st.persisted.metadata_history e = some cond →
      ((write_json_with_history md st).persisted.metadata_history).length ≤ 10)
    ∧ (history_entry_of md = some e →
      st.persisted.metadata_history.length = 10 →
      hist_append_cond st.persisted.metadata_history e = some true →
      (write_json_with_history md st).persisted.metadata_history
        = st.persisted.metadata_history.drop 1 ++ [e])
    ∧ (st.persisted.metadata_history.length ≤ 10 →
      ((write_json_with_history md st).persisted.metadata_history).length ≤ 10) := by
  refine ⟨?_, ?_, ?_⟩
  · intro he cond hcond
    simp only [write_json_with_history, he, hcond]
    exact pyLastTen_length_le _
  · intro he hlen hcond
    simp only [write_json_with_history, he, hcond, if_true]
    rw [pyLastTen]
    have hl : (st.persisted.metadata_history ++ [e]).length = 11 := by
      simp [hlen]
    rw [hl]
    have h11 : (11 - 10 : Nat) = 1 := rfl
    rw [h11, List.drop_append_of_le_length (by omega)]
  · intro hle
    rw [write_json_with_history]
    cases h1 : history_entry_of md with
    | none => exact hle
    | some e2 =>
      simp only
      cases h2 : hist_append_cond st.persisted.metadata_history e2 with
      | none => exact hle
      | some cond =>
        simp only
        exact pyLastTen_length_le _

/-- C4 witness: a full 10-entry history receiving a fresh distinct entry keeps
    exactly 10 entries, dropping the oldest and appending the new one. -/
theorem c4_history_capped_witness :
    ((write_json_with_history c4_new_event c4_state).persisted.metadata_history).length ≤ 10
    ∧ (write_json_with_history c4_new_event c4_state).persisted.metadata_history
      = c4_full_history.drop 1 ++ [c4_new_event] := by
  constructor
  · exact (c4_history_capped c4_state c4_new_event c4_new_event).1
      (by decide) true (by decide)
  · exact (c4_history_capped c4_state c4_new_event c4_new_event).2.1
      (by decide) (by decide) (by decide)

/-! C2: dedup suppression and the first-event exception. -/

theorem current_key_ne_empty (md : Dict) : ¬ current_key_of md = "" := by
  intro h
  have hlen := congrArg String.length h
  rw [current_key_of] at hlen
  simp only [String.length_append] at hlen
  have hbar : ("|" : String).length = 1 := rfl
  have hemp : ("" : String).length = 0 := rfl
  rw [hbar, hemp] at hlen
  omega

/-- C2: inside one session, an event whose (artist, title, type) dedup key
    equals the key of the immediately preceding emitted event (the recorded
    last_artist/last_title/last_type) is suppressed as a no-op: nothing is
    appended to the event trace and the persisted metadata.current and
    metadata.history are unchanged.  The very first event of the session
    (has_seen_first_metadata still unset) is always processed and persisted,
    whatever its key - including a key equal to the initial default. -/
theorem c2_dedup_suppression (now : String) (md : Dict) (st : MonState)
    (_hok : md_title_ok md = true) :
    (st.has_seen_first_metadata = true →
      current_key_of md = last_key_of st →
      (process_metadata now md st).persisted.metadata_current = st.persisted.metadata_current
      ∧ (process_metadata now md st).persisted.metadata_history = st.persisted.metadata_history
      ∧ (process_metadata now md st).events = st.events)
    ∧ (st.has_seen_first_metadata = false →
      history_last_ok st.persisted.metadata_history = true →
      (process_metadata now md st).events = st.events ++ [complete_metadata_of now md]
      ∧ (process_metadata now md st).persisted.metadata_current
          = some (pyFilterAudio (complete_metadata_of now md))) := by
  constructor
  · intro hseen hkey
    have hcond : (current_key_of md == last_key_of st && !(current_key_of md == "")) = true := by
      simp only [Bool.and_eq_true, beq_iff_eq, Bool.not_eq_true', beq_eq_false_iff_ne]
      exact ⟨hkey, current_key_ne_empty md⟩
    rw [process_metadata, hseen]
    simp only [Bool.not_true, Bool.false_eq_true, if_false, hcond, if_true]
    trivial
  · intro hseen hhist
    rw [process_metadata, hseen]
    simp only [Bool.not_false, if_true]
    set st1 : MonState := { st with has_seen_first_metadata := true } with hst1
    obtain ⟨hts, hty, hti, har⟩ := complete_has_core_fields now md
    obtain ⟨ts, hts⟩ := Option.isSome_iff_exists.mp hts
    obtain ⟨ty, hty⟩ := Option.isSome_iff_exists.mp hty
    obtain ⟨ti, hti⟩ := Option.isSome_iff_exists.mp hti
    obtain ⟨ar, har⟩ := Option.isSome_iff_exists.mp har
    have hhe : history_entry_of (complete_metadata_of now md)
        = some [("timestamp", ts), ("type", ty), ("title", ti), ("artist", ar)] := by
      rw [history_entry_of, hts, hty, hti, har]
    have hcond : ∃ c, hist_append_cond st1.persisted.metadata_history
        [("timestamp", ts), ("type", ty), ("title", ti), ("artist", ar)] = some c := by
      rw [hist_append_cond]
      cases hlast : st1.persisted.metadata_history.getLast? with
      | none => exact ⟨true, rfl⟩
      | some lastE =>
        have hlast0 : st.persisted.metadata_history.getLast? = some lastE := hlast
        rw [history_last_ok, hlast0] at hhist
        simp only [Bool.and_eq_true] at hhist
        obtain ⟨ltS, laS⟩ := hhist
        obtain ⟨lt, hlt⟩ := Option.isSome_iff_exists.mp ltS
        obtain ⟨la, hla⟩ := Option.isSome_iff_exists.mp laS
        have h3 : pyGet [("timestamp", ts), ("type", ty), ("title", ti), ("artist", ar)] ("title")
            = some ti := rfl
        have h4 : pyGet [("timestamp", ts), ("type", ty), ("title", ti), ("artist", ar)] ("artist")
            = some ar := rfl
        simp only [hlt, hla, h3, h4]
        exact ⟨_, rfl⟩
    obtain ⟨c, hc⟩ := hcond
    simp only [process_metadata_emit, write_json_with_history, hhe, hc]
    constructor <;> trivial

/-- C2 witness: a repeated song key is suppressed; the first event of a fresh
    session is persisted. -/
theorem c2_dedup_suppression_witness :
    ((process_metadata ("t2") [("title", PyVal.vStr "A - B")]
        { initState with has_seen_first_metadata := true,
                         last_artist := "A", last_title := "B", last_type := "song" }).events
      = ({ initState with has_seen_first_metadata := true,
                          last_artist := "A", last_title := "B", last_type := "song" } : MonState).events)
    ∧ ((process_metadata ("t1") [("title", PyVal.vStr "A - B")] initState).events
      = initState.events ++ [complete_metadata_of ("t1") [("title", PyVal.vStr "A - B")]]) := by
  constructor
  · exact ((c2_dedup_suppression ("t2") [("title", PyVal.vStr "A - B")]
      { initState with has_seen_first_metadata := true,
                       last_artist := "A", last_title := "B", last_type := "song" }
      (by decide)).1 rfl (by decide)).2.2
  · exact ((c2_dedup_suppression ("t1") [("title", PyVal.vStr "A - B")] initState
      (by decide)).2 rfl (by decide)).1

/-! C10: stream-id extraction and artifact-naming fallback. -/

theorem dropWhile_head_false {p : Char → Bool} :
    ∀ {l : List Char} {c : Char} {rest : List Char}, l.dropWhile p = c :: rest → p c = false := by
  intro l
  induction l with
  | nil => intro c rest h; simp [List.dropWhile] at h
  | cons a as ih =>
    intro c rest h
    rw [List.dropWhile_cons] at h
    by_cases hp : p a = true
    · rw [if_pos hp] at h; exact ih h
    · rw [if_neg hp] at h
      injection h with h1 _
      subst h1
      simpa using hp

theorem extract_digit_run_some_iff (suf mount : List Char) (_hsuf : suf ≠ []) (run : List Char) :
    extract_digit_run suf mount = some run ↔
      run ≠ [] ∧ run.all Char.isDigit = true ∧
      ∃ pre, mount = pre ++ run ++ suf ∧ (∀ c, pre.getLast? = some c → c.isDigit = false) := by
  constructor
  · intro h
    rw [extract_digit_run] at h
    by_cases hs : suf.isSuffixOf mount = true
    · rw [if_pos hs] at h
      obtain ⟨t, ht⟩ := List.isSuffixOf_iff_suffix.mp hs
      have hbase : mount.take (mount.length - suf.length) = t := by
        rw [← ht]
        have hlen : (t ++ suf).length - suf.length = t.length := by simp
        rw [hlen, List.take_left]
      rw [hbase] at h
      by_cases hemp : ((t.reverse.takeWhile Char.isDigit).reverse).isEmpty = true
      · rw [if_pos hemp] at h; simp at h
      · rw [if_neg hemp] at h
        simp only [Option.some.injEq] at h
        subst h
        refine ⟨by simpa [List.isEmpty_iff] using hemp, ?_, ?_⟩
        · rw [List.all_eq_true]
          intro x hx
          rw [List.mem_reverse] at hx
          exact List.mem_takeWhile_imp hx
        · refine ⟨(t.reverse.dropWhile Char.isDigit).reverse, ?_, ?_⟩
          · rw [← ht]
            congr 1
            conv_lhs => rw [← List.reverse_reverse t,
              ← List.takeWhile_append_dropWhile Char.isDigit t.reverse,
              List.reverse_append]
          · intro c hc
            rw [List.getLast?_reverse] at hc
            cases hdw : t.reverse.dropWhile Char.isDigit with
            | nil => rw [hdw] at hc; simp at hc
            | cons c2 r2 =>
              rw [hdw] at hc
              simp only [List.head?_cons, Option.some.injEq] at hc
              subst hc
              exact dropWhile_head_false hdw
    · rw [if_neg hs] at h; simp at h
  · rintro ⟨hne, hdig, pre, hdec, hlast⟩
    rw [extract_digit_run]
    have hs : suf.isSuffixOf mount = true := by
      rw [List.isSuffixOf_iff_suffix]
      exact ⟨pre ++ run, by rw [hdec]⟩
    rw [if_pos hs]
    have hbase : mount.take (mount.length - suf.length) = pre ++ run := by
      rw [hdec]
      have hlen : (pre ++ run ++ suf).length - suf.length = (pre ++ run).length := by
        simp only [List.length_append]
        omega
      rw [hlen]
      exact List.take_left (pre ++ run) suf
    rw [hbase]
    show (if ((List.takeWhile Char.isDigit (pre ++ run).reverse).reverse).isEmpty = true
        then none else some ((List.takeWhile Char.isDigit (pre ++ run).reverse).reverse))
      = some run
    have hrev : (pre ++ run).reverse.takeWhile Char.isDigit = run.reverse := by
      rw [List.reverse_append]
      rw [List.takeWhile_append_of_pos (by
        intro x hx
        rw [List.mem_reverse] at hx
        exact (List.all_eq_true.mp hdig) x hx)]
      have hpre0 : pre.reverse.takeWhile Char.isDigit = [] := by
        cases hpr : pre.reverse with
        | nil => rfl
        | cons c r =>
          have hcl : pre.getLast? = some c := by
            rw [← List.head?_reverse, hpr]
            rfl
          rw [List.takeWhile_cons, hlast c hcl]
          simp
      rw [hpre0, List.append_nil]
    rw [hrev, List.reverse_reverse]
    rw [if_neg (by simpa [List.isEmpty_iff] using hne)]

/-- C10 amended: for a nonempty URL, extract_stream_id_from_url returns
    exactly the digit runs D for which the last slash-separated segment of the
    URL - after discounting one trailing newline, which the regex dollar
    anchor permits - is pre ++ D ++ "-icy" or pre ++ D ++ "-mp3" with pre not
    ending in a digit (so D is the maximal digit run right before the suffix);
    for every other URL, including the empty one, it returns none; and when it
    returns none and no caller-supplied id exists, the constructed
    json/log/advanced-log file names fall back to the mount (last path
    segment, kept verbatim - the newline allowance applies only to the regex
    match, not to the stored mount). -/
theorem c10_stream_id_and_fallback (url D : String) :
    (url ≠ "" →
      (extract_stream_id_from_url url = some D ↔
        D.data ≠ [] ∧ D.data.all Char.isDigit = true ∧
        ∃ pre suf, (suf = ("-icy").data ∨ suf = ("-mp3").data) ∧
          dollar_trim (lastSegment '/' url.data) = pre ++ D.data ++ suf ∧
          (∀ c, pre.getLast? = some c → c.isDigit = false)))
    ∧ extract_stream_id_from_url ("") = none
    ∧ (url ≠ "" →
      extract_stream_id_from_url url = none →
      ¬ String.mk (lastSegment '/' url.data) = "" →
      init_naming (some url) none = .ok
        { stream_id := none, mount := some (String.mk (lastSegment '/' url.data)),
          json_path := String.mk (lastSegment '/' url.data) ++ ".json",
          log_path := String.mk (lastSegment '/' url.data) ++ "_friendly.log",
          adv_log_path := String.mk (lastSegment '/' url.data) ++ ".log" }) := by
  refine ⟨?_, rfl, ?_⟩
  · intro hurl
    have hbeq : (url == "") = false := by rw [beq_eq_false_iff_ne]; exact hurl
    rw [extract_stream_id_from_url, hbeq]
    simp only [Bool.false_eq_true, if_false]
    constructor
    · intro h
      cases h1 : extract_digit_run (("-icy").data) (dollar_trim (lastSegment '/' url.data)) with
      | some r =>
        simp only [h1, Option.some.injEq] at h
        subst h
        obtain ⟨hne, hdig, pre, hdec, hlast⟩ :=
          (extract_digit_run_some_iff _ _ (by decide) r).mp h1
        exact ⟨hne, hdig, pre, ("-icy").data, Or.inl rfl, hdec, hlast⟩
      | none =>
        simp only [h1] at h
        cases h2 : extract_digit_run (("-mp3").data) (dollar_trim (lastSegment '/' url.data)) with
        | some r =>
          simp only [h2, Option.some.injEq] at h
          subst h
          obtain ⟨hne, hdig, pre, hdec, hlast⟩ :=
            (extract_digit_run_some_iff _ _ (by decide) r).mp h2
          exact ⟨hne, hdig, pre, ("-mp3").data, Or.inr rfl, hdec, hlast⟩
        | none =>
          simp only [h2] at h
          exact Option.noConfusion h
    · rintro ⟨hne, hdig, pre, suf, hsuf, hdec, hlast⟩
      rcases hsuf with hicy | hmp3
      · subst hicy
        have h1 : extract_digit_run (("-icy").data) (dollar_trim (lastSegment '/' url.data)) = some D.data :=
          (extract_digit_run_some_iff _ _ (by decide) D.data).mpr ⟨hne, hdig, pre, hdec, hlast⟩
        simp only [h1]
      · subst hmp3
        have hninc : extract_digit_run (("-icy").data) (dollar_trim (lastSegment '/' url.data)) = none := by
          cases hic : extract_digit_run (("-icy").data) (dollar_trim (lastSegment '/' url.data)) with
          | none => rfl
          | some r =>
            exfalso
            obtain ⟨hne2, hdig2, pre2, hdec2, hlast2⟩ :=
              (extract_digit_run_some_iff _ _ (by decide) r).mp hic
            have hEq : (pre2 ++ r) ++ ("-icy").data = (pre ++ D.data) ++ ("-mp3").data := by
              have e1 : pre2 ++ r ++ ("-icy").data = (pre2 ++ r) ++ ("-icy").data := by simp
              have e2 : pre ++ D.data ++ ("-mp3").data = (pre ++ D.data) ++ ("-mp3").data := by
                simp
              rw [← e1, ← e2, ← hdec2, ← hdec]
            have hlen : (("-icy").data : List Char).length = (("-mp3").data : List Char).length :=
              by decide
            have hcon := (List.append_inj' hEq hlen).2
            exact absurd hcon (by decide)
        have h2 : extract_digit_run (("-mp3").data) (dollar_trim (lastSegment '/' url.data)) = some D.data :=
          (extract_digit_run_some_iff _ _ (by decide) D.data).mpr ⟨hne, hdig, pre, hdec, hlast⟩
        simp only [hninc, h2]
  · intro hurl hnone hm
    have hbeq : (url == "") = false := by rw [beq_eq_false_iff_ne]; exact hurl
    have hmbeq : (String.mk (lastSegment '/' url.data) == "") = false := by
      rw [beq_eq_false_iff_ne]; exact hm
    rw [init_naming]
    simp only [optTruthy, hbeq, Option.getD, hnone, hmbeq, Bool.not_false, if_true,
      Bool.false_eq_true, if_false]

/-- C10 witness: a URL whose mount ends in digits-icy yields the digit run,
    and a URL with no id pattern falls back to mount-based file names. -/
theorem c10_stream_id_and_fallback_witness :
    (∃ pre suf, (suf = ("-icy").data ∨ suf = ("-mp3").data) ∧
        dollar_trim (lastSegment '/' ("https://h/live/335488-icy").data)
          = pre ++ ("335488").data ++ suf ∧
        (∀ c, pre.getLast? = some c → c.isDigit = false))
    ∧ init_naming (some ("https://h/00hits-aac")) none = .ok
        { stream_id := none, mount := some ("00hits-aac"),
          json_path := "00hits-aac.json", log_path := "00hits-aac_friendly.log",
          adv_log_path := "00hits-aac.log" } := by
  constructor
  · exact (((c10_stream_id_and_fallback ("https://h/live/335488-icy") ("335488")).1
      (by decide)).mp (by decide)).2.2
  · exact (c10_stream_id_and_fallback ("https://h/00hits-aac") ("0")).2.2
      (by decide) (by decide) (by decide)

/-- C10 counterexample: on a URL whose mount is "335488-icy" followed by a
    newline, the regex dollar anchor matches just before the trailing newline,
    so the code returns the digit run 335488 - yet the last slash-separated
    segment does not end with any D immediately followed by the literal
    "-icy" or "-mp3" (its last character is the newline), so the claim, which
    demands None for every such URL, is false. -/
theorem c10_counterexample :
    extract_stream_id_from_url c10_newline_url = some ("335488")
    ∧ ¬ ∃ (D pre suf : List Char), (suf = ("-icy").data ∨ suf = ("-mp3").data)
        ∧ lastSegment '/' c10_newline_url.data = pre ++ D ++ suf := by
  constructor
  · decide
  · rintro ⟨D, pre, suf, hsuf, hdec⟩
    have hsfx : suf <:+ lastSegment '/' c10_newline_url.data := by
      rw [hdec]
      exact ⟨pre ++ D, rfl⟩
    rcases hsuf with h | h <;> subst h
    · have hb : (("-icy").data).isSuffixOf (lastSegment '/' c10_newline_url.data) = true :=
        List.isSuffixOf_iff_suffix.mpr hsfx
      exact absurd hb (by decide)
    · have hb : (("-mp3").data).isSuffixOf (lastSegment '/' c10_newline_url.data) = true :=
        List.isSuffixOf_iff_suffix.mpr hsfx
      exact absurd hb (by decide)

end StreamMetadata
